import Mathlib

/-!
# Verification of the Sulbing trend dashboard (`naverapieda/dashboard.py`)

Shallow embedding of the data pipeline of the Streamlit dashboard:
file selection, calendar-column derivation, year filtering, metrics
(mean / max / correlation), weekday aggregation, timestamp merge,
free-text search filtering and the CSV export path.  Machine floats of
the source are modelled as exact rationals together with an explicit
`nan` constructor mirroring the IEEE NaN results pandas produces on
empty or degenerate inputs.
-/

namespace Dashboard

/-! ## Dates and derived calendar columns

`pd.to_datetime` parses the `period` column into dates; the derived
columns `month`, `year`, `dayofweek` (`dt.day_name()`) and `is_weekend`
(`dt.dayofweek.isin([5, 6])`) are computed from them
(`dashboard.py` lines 94-99). -/

/-- A calendar date in the proleptic Gregorian calendar. -/
structure Date where
  year : ℕ
  month : ℕ
  day : ℕ
deriving DecidableEq, Repr

/-- Gregorian leap-year rule (as used by `pandas.DatetimeIndex`). -/
def isLeap (y : ℕ) : Bool :=
  (y % 4 == 0 && y % 100 != 0) || (y % 400 == 0)

/-- Number of days in a month of a given year. -/
def daysInMonth (y m : ℕ) : ℕ :=
  if m = 2 then (if isLeap y then 29 else 28)
  else if m = 4 ∨ m = 6 ∨ m = 9 ∨ m = 11 then 30
  else 31

/-- A date is valid when its month is 1..12 and its day fits the month. -/
def validDate (d : Date) : Prop :=
  1 ≤ d.month ∧ d.month ≤ 12 ∧ 1 ≤ d.day ∧ d.day ≤ daysInMonth d.year d.month ∧ 1 ≤ d.year

instance (d : Date) : Decidable (validDate d) := by
  unfold validDate; infer_instance

/-- Cumulative days before month `m` in a non-leap year. -/
def daysBeforeMonth (m : ℕ) : ℕ :=
  [0, 0, 31, 59, 90, 120, 151, 181, 212, 243, 273, 304, 334].getD m 0

/-- Rata-die day number of a date: day 1 is 0001-01-01 (a Monday in the
proleptic Gregorian calendar). -/
def rataDie (d : Date) : ℕ :=
  let py := d.year - 1
  365 * py + py / 4 - py / 100 + py / 400
    + daysBeforeMonth d.month
    + (if 3 ≤ d.month ∧ isLeap d.year then 1 else 0)
    + d.day

/-- `dt.dayofweek`: Monday = 0 .. Sunday = 6 (pandas numbering). -/
def dayofweekNum (d : Date) : ℕ :=
  (rataDie d + 6) % 7

/-- Full English weekday names indexed by `dayofweekNum`. -/
def dayNames : List String :=
  ["Monday", "Tuesday", "Wednesday", "Thursday", "Friday", "Saturday", "Sunday"]

/-- `dt.day_name()`: the full English weekday name (line 98). -/
def dayName (d : Date) : String :=
  dayNames.getD (dayofweekNum d) ""

/-- `dt.dayofweek.isin([5, 6])`: the derived weekend flag (line 99). -/
def isWeekend (d : Date) : Bool :=
  dayofweekNum d = 5 ∨ dayofweekNum d = 6

/-- `dt.quarter`: calendar quarter of a date (line 191). -/
def quarterOf (d : Date) : ℕ :=
  (d.month - 1) / 3 + 1

/-! ## Rows and year filtering

A loaded row keeps its original pandas integer index label `idx`
(boolean-mask filtering preserves labels), its parsed `period` and its
numeric `ratio`.  The derived columns are functions of `period`. -/

/-- One observation row of a loaded series table. -/
structure Row where
  idx : ℕ
  period : Date
  ratio : ℚ
deriving DecidableEq, Repr

/-- The boolean mask `df['year'].isin(year_filter)` (lines 116-117). -/
def isinMask (t : List Row) (ys : List ℕ) : List Bool :=
  t.map (fun r => decide (r.period.year ∈ ys))

/-- Row selection by a boolean mask, `df[mask]`: keeps the rows whose
mask entry is `true`, in order. -/
def maskSelect : List Row → List Bool → List Row
  | [], _ => []
  | _ :: _, [] => []
  | r :: t, b :: m => if b then r :: maskSelect t m else maskSelect t m

/-- `df[df['year'].isin(year_filter)]` (lines 116-117): the year-filter
stage. -/
def filterByYears (t : List Row) (ys : List ℕ) : List Row :=
  maskSelect t (isinMask t ys)

/-! ## Metrics stage

`df_s_filtered['ratio'].mean()`, `.max()` (lines 126, 130, 134).  pandas
returns the IEEE NaN float on an empty series; `PFloat` represents the
float results of these reductions with NaN explicit. -/

/-- A pandas scalar reduction result: NaN or an exact numeric value. -/
inductive PFloat where
  | nan : PFloat
  | val : ℚ → PFloat
deriving DecidableEq, Repr

/-- The `ratio` column of a table. -/
def ratios (t : List Row) : List ℚ :=
  t.map Row.ratio

/-- `Series.mean()`: NaN on an empty series, otherwise the arithmetic
mean (lines 126, 130). -/
def seriesMean (l : List ℚ) : PFloat :=
  if l.isEmpty then .nan else .val (l.sum / l.length)

/-- `Series.max()`: NaN on an empty series, otherwise the maximum
(line 134). -/
def seriesMax : List ℚ → PFloat
  | [] => .nan
  | x :: xs => .val (xs.foldl max x)

/-- Arithmetic mean of a list of rationals (whole list; used on the
nonempty groups produced by `groupby`). -/
def meanQ (l : List ℚ) : ℚ :=
  l.sum / l.length

/-! ## Aggregation stage: weekday grouping

`df_s_filtered.groupby('dayofweek')['ratio'].mean().reindex([...])`
(line 184). -/

/-- The canonical weekday order passed to `.reindex` (line 184). -/
def dayOrder : List String :=
  ["Monday", "Tuesday", "Wednesday", "Thursday", "Friday", "Saturday", "Sunday"]

/-- `groupby('dayofweek')['ratio'].mean()` (line 184): one entry per
distinct day name present in the table, mapping it to the mean ratio of
its rows.  pandas lists group keys sorted; the subsequent `reindex`
looks keys up by name, so the key order here (deduplicated occurrence
order) is immaterial. -/
def groupbyMeanDay (t : List Row) : List (String × ℚ) :=
  ((t.map (fun r => dayName r.period)).dedup).map
    (fun d => (d, meanQ (ratios (t.filter (fun r => dayName r.period == d)))))

/-- `.reindex(['Monday', ..., 'Sunday'])` (line 184): one bucket per
canonical weekday, in canonical order; a weekday absent from the grouped
means gets the NaN "no data" marker. -/
def reindexDays (m : List (String × ℚ)) : List (String × PFloat) :=
  dayOrder.map (fun d =>
    (d, match m.find? (fun p => p.1 == d) with
        | some p => PFloat.val p.2
        | none => PFloat.nan))

/-- `day_avg` (line 184): grouped weekday means reindexed to canonical
weekday order. -/
def day_avg (t : List Row) : List (String × PFloat) :=
  reindexDays (groupbyMeanDay t)

/-! ## Correlation metric

`corr = df_s_filtered['ratio'].corr(df_g_filtered['ratio'])` (line 138).
`Series.corr` aligns the two series on their *index labels* (the row
labels surviving the boolean year filter), not on the `period`
timestamps, and produces NaN when fewer than two aligned pairs exist or
when either aligned sample has zero variance. -/

/-- Index alignment of `Series.corr`: pair each row of `a` with the
(first) row of `b` carrying the same index label; rows of `a` without a
partner are dropped. -/
def alignPairs (a b : List Row) : List (ℚ × ℚ) :=
  a.filterMap (fun r =>
    (b.find? (fun s => s.idx == r.idx)).map (fun s => (r.ratio, s.ratio)))

/-- Centred cross moment Σ (x−x̄)(y−ȳ) of the aligned sample. -/
def covXY (ps : List (ℚ × ℚ)) : ℚ :=
  let mx := meanQ (ps.map Prod.fst)
  let my := meanQ (ps.map Prod.snd)
  (ps.map (fun p => (p.1 - mx) * (p.2 - my))).sum

/-- Centred second moment Σ (x−x̄)² of the first coordinates. -/
def varX (ps : List (ℚ × ℚ)) : ℚ :=
  let mx := meanQ (ps.map Prod.fst)
  (ps.map (fun p => (p.1 - mx) ^ 2)).sum

/-- Centred second moment Σ (y−ȳ)² of the second coordinates. -/
def varY (ps : List (ℚ × ℚ)) : ℚ :=
  let my := meanQ (ps.map Prod.snd)
  (ps.map (fun p => (p.2 - my) ^ 2)).sum

/-- Result of `Series.corr`: NaN, or a defined Pearson value recorded by
the exact moment triple (cross moment, variance numerators); the float
the source displays is `covXY / (√varX · √varY)`, irrational in
general, so the defined case carries the exact moments instead. -/
inductive CorrResult where
  | nan : CorrResult
  | val : ℚ → ℚ → ℚ → CorrResult
deriving DecidableEq, Repr

/-- `df_s_filtered['ratio'].corr(df_g_filtered['ratio'])` (line 138). -/
def seriesCorr (a b : List Row) : CorrResult :=
  let ps := alignPairs a b
  if ps.length < 2 then CorrResult.nan
  else if varX ps = 0 ∨ varY ps = 0 then CorrResult.nan
  else CorrResult.val (covXY ps) (varX ps) (varY ps)

/-- Replace every timestamp of a table by a fixed date, keeping index
labels and ratios (used to state that `seriesCorr` ignores
timestamps). -/
def setPeriod (d : Date) (t : List Row) : List Row :=
  t.map (fun r => ⟨r.idx, d, r.ratio⟩)

/-! ## Scatter input: merge on period

`combined = pd.merge(df_s_filtered[['period','ratio']],
df_g_filtered[['period','ratio']], on='period', suffixes=('_s','_g'))`
(line 207): an inner join on the timestamp column. -/

/-- Inner join of the two filtered tables on `period`: every pair of a
row of `a` and a row of `b` sharing the same period contributes one
output row `(period, ratio_s, ratio_g)` (line 207). -/
def mergeOnPeriod (a b : List Row) : List (Date × ℚ × ℚ) :=
  a.flatMap (fun r =>
    (b.filter (fun s => s.period == r.period)).map
      (fun s => (r.period, r.ratio, s.ratio)))

/-! ## Dataset file selection

`s_files = glob.glob(os.path.join(data_dir, "설빙_search_trend_*.csv"))`
(lines 84-85): `glob.glob` returns the matching filenames in filesystem
enumeration order, unsorted.  After the emptiness check (line 87) the
loader reads `s_files[-1]` (lines 91-92), the final element of that
enumeration. -/

/-- Lexicographic (codepoint-wise) order on filename characters. -/
def lexLeB : List Char → List Char → Bool
  | [], _ => true
  | _ :: _, [] => false
  | a :: as, b :: bs => if a < b then true else if a = b then lexLeB as bs else false

/-- Lines 87-92: `None` when no file matches, else the file at position
`-1` of the glob enumeration. -/
def selectDataFile (files : List String) : Option String :=
  if files.isEmpty then none else files.getLast?

/-! ## Search filtering (lines 232-236)

`display_df[display_df.astype(str).apply(lambda x:
x.str.contains(search_query, case=False)).any(axis=1)]`: a row of the
combined table survives when some stringified cell matches the query.
`Series.str.contains` passes the query to `re.search` as a regular
expression pattern (`regex=True` is the pandas default) with
`re.IGNORECASE`; the regular-expression fragment modelled here is the
one generated by queries made of literal characters and the `.`
wildcard.  Case folding is modelled by lower-casing both sides. -/

/-- Lower-case a cell's characters (`case=False` comparison). -/
def lowerChars (l : List Char) : List Char :=
  l.map Char.toLower

/-- Match the pattern against a prefix of the text: a pattern character
matches itself, `.` matches any character. -/
def reMatchAt : List Char → List Char → Bool
  | [], _ => true
  | _ :: _, [] => false
  | p :: ps, c :: cs => (p == '.' || p == c) && reMatchAt ps cs

/-- `re.search`: the pattern matches at some position of the text. -/
def reSearch (p : List Char) : List Char → Bool
  | [] => reMatchAt p []
  | c :: cs => reMatchAt p (c :: cs) || reSearch p cs

/-- Row predicate of line 236: some stringified cell of the row matches
the query, case-insensitively. -/
def rowMatches (q : String) (cells : List String) : Bool :=
  cells.any (fun c => reSearch (lowerChars q.data) (lowerChars c.data))

/-- Lines 235-236: `if search_query:` — an empty query leaves the
combined table unchanged; otherwise keep the matching rows. -/
def searchFilter (q : String) (t : List (List String)) : List (List String) :=
  if q = "" then t else t.filter (rowMatches q)

/-- Literal character match at a position (no wildcard). -/
def litMatchAt : List Char → List Char → Bool
  | [], _ => true
  | _ :: _, [] => false
  | p :: ps, c :: cs => p == c && litMatchAt ps cs

/-- Literal substring containment. -/
def isSubstr (p : List Char) : List Char → Bool
  | [] => litMatchAt p []
  | c :: cs => litMatchAt p (c :: cs) || isSubstr p cs

/-- The search filter as the specification words it: keep exactly the
rows in which at least one stringified field contains the query as a
literal substring, compared case-insensitively; the empty query is the
identity. -/
def searchFilterSpec (q : String) (t : List (List String)) : List (List String) :=
  if q = "" then t
  else t.filter (fun cells =>
    cells.any (fun c => isSubstr (lowerChars q.data) (lowerChars c.data)))

/-! ## Pipeline state and the in-place quarter assignment

The script-level variables of lines 104-117 and the quarter-column
assignment of line 191.  A presentation-stage table row carries the
optional `quarter` cell, absent until line 191 fills it. -/

/-- A row of a filtered table together with its optional `quarter`
column value. -/
abbrev RowQ := Row × Option ℕ

/-- The script's table-valued variables after lines 104-117. -/
structure DashState where
  df_s : List Row
  df_g : List Row
  df_s_filtered : List RowQ
  df_g_filtered : List RowQ
deriving DecidableEq, Repr

/-- Lines 104-117: loaded tables and their year-filtered derivations;
no `quarter` column exists yet. -/
def mkState (s g : List Row) (ys : List ℕ) : DashState :=
  ⟨s, g, (filterByYears s ys).map (fun r => (r, none)),
         (filterByYears g ys).map (fun r => (r, none))⟩

/-- Line 191: `df_s_filtered['quarter'] = df_s_filtered['period'].dt.quarter`
— fills the `quarter` column of `df_s_filtered`, in place. -/
def quarterStep (st : DashState) : DashState :=
  { st with df_s_filtered :=
      st.df_s_filtered.map (fun rq => (rq.1, some (quarterOf rq.1.period))) }

/-! ## Export path: CSV download and reload (lines 234-247)

`display_df = pd.concat([df_s_filtered, df_g_filtered])` (line 234);
`csv = display_df.to_csv(index=False).encode('utf-8-sig')` (line 241).
After line 191 only `df_s_filtered` carries a `quarter` column, so the
concatenated frame has the union of the columns and the g-rows'
`quarter` cell is NaN, which `to_csv` renders as the empty cell.  The
byte-order mark of the encoding and the exact float rendering are
immaterial to the round-trip property (row count and column set); the
rationals are rendered as exact numerals here, equally separator-free. -/

/-- The column list of the exported `display_df`. -/
def displayCols : List String :=
  ["period", "ratio", "month", "year", "dayofweek", "is_weekend", "quarter"]

/-- Zero-padded two-digit rendering of a month or day number. -/
def pad2 (n : ℕ) : String :=
  if n < 10 then "0" ++ toString n else toString n

/-- `to_csv` rendering of a `datetime64` cell: ISO `YYYY-MM-DD`. -/
def dateStr (d : Date) : String :=
  toString d.year ++ "-" ++ pad2 d.month ++ "-" ++ pad2 d.day

/-- `to_csv` rendering of a boolean cell. -/
def boolStr (b : Bool) : String :=
  if b then "True" else "False"

/-- `to_csv` rendering of a numeric cell (exact rational text). -/
def ratStr (q : ℚ) : String :=
  if q.den = 1 then toString q.num else toString q.num ++ "/" ++ toString q.den

/-- `to_csv` rendering of the optional quarter cell: a missing value
(NaN) renders as the empty cell. -/
def quarterCell : Option ℕ → String
  | none => ""
  | some n => toString n

/-- One row of `display_df` stringified for export: `period`, `ratio`,
the derived calendar columns and the optional `quarter` column. -/
def rowCells (rq : RowQ) : List String :=
  [dateStr rq.1.period, ratStr rq.1.ratio, toString rq.1.period.month,
   toString rq.1.period.year, dayName rq.1.period,
   boolStr (isWeekend rq.1.period), quarterCell rq.2]

/-- `pd.concat([df_s_filtered, df_g_filtered])` (line 234), stringified:
the rows of both filtered tables, s-rows first. -/
def displayRows (st : DashState) : List (List String) :=
  (st.df_s_filtered ++ st.df_g_filtered).map rowCells

/-- Join parts with a separator character (a CSV record from cells). -/
def joinSep (sep : Char) : List (List Char) → List Char
  | [] => []
  | [x] => x
  | x :: y :: xs => x ++ sep :: joinSep sep (y :: xs)

/-- Split a character list at every occurrence of the separator. -/
def splitSep (sep : Char) : List Char → List (List Char)
  | [] => [[]]
  | c :: cs =>
      let r := splitSep sep cs
      if c == sep then [] :: r else (c :: r.headI) :: r.tail

/-- A CSV record: the comma-joined cells of one row (or of the
header). -/
def recordOf (cells : List String) : List Char :=
  joinSep ',' (cells.map String.data)

/-- `display_df.to_csv(index=False)` (line 241): the header record and
then one record per row, cells comma-joined, every record terminated by
a newline. -/
def toCSV (cols : List String) (rows : List (List String)) : List Char :=
  ((cols :: rows).map recordOf).flatMap (fun l => l ++ ['\n'])

/-- `pd.read_csv` of the exported text: break at newlines, skip blank
records, split every record at commas; the first record is the header,
the rest are data rows. -/
def parseCSV (txt : List Char) :
    Option (List (List Char) × List (List (List Char))) :=
  match (splitSep '\n' txt).filter (fun l => !l.isEmpty) with
  | [] => none
  | h :: rs => some (splitSep ',' h, rs.map (splitSep ','))

/-- Decimal digit parsing of a reloaded cell, as `read_csv` infers an
integer column. -/
def strToNat? (l : List Char) : Option ℕ :=
  if l.isEmpty || l.any (fun c => !c.isDigit) then none
  else some (l.foldl (fun n c => 10 * n + (c.toNat - 48)) 0)

/-- Filtering the reloaded table to a year set: keep the records whose
`year` column (position 3 of the header) parses to a member of the
set. -/
def reloadYearFilter (ys : List ℕ) (recs : List (List (List Char))) :
    List (List (List Char)) :=
  recs.filter (fun cells =>
    match strToNat? (cells.getD 3 []) with
    | some y => decide (y ∈ ys)
    | none => false)

/-- Separator-cleanliness of a stringified table: no cell contains a
comma or a newline (true of the dashboard's rendered dates, numerals,
day names and flags; `to_csv` would otherwise quote, which is out of
scope of this embedding). -/
def tableClean (rows : List (List String)) : Bool :=
  rows.all (fun cells =>
    cells.all (fun c => c.data.all (fun ch => ch != ',' && ch != '\n')))

/-! ## Concrete sample tables

Small fixtures used to evaluate the pipeline at concrete inputs: two
pairs of tables whose index labels coincide while their `period`
timestamps are disjoint. -/

/-- Sample primary table: three January 2024 observations. -/
def sampleA : List Row :=
  [⟨0, ⟨2024, 1, 1⟩, 10⟩, ⟨1, ⟨2024, 1, 2⟩, 20⟩, ⟨2, ⟨2024, 1, 3⟩, 30⟩]

/-- Sample secondary table: three June 2025 observations sharing
`sampleA`'s index labels but none of its timestamps. -/
def sampleB : List Row :=
  [⟨0, ⟨2025, 6, 1⟩, 5⟩, ⟨1, ⟨2025, 6, 2⟩, 7⟩, ⟨2, ⟨2025, 6, 3⟩, 6⟩]

/-- Sample primary table for the merge contrast: two 2024 observations. -/
def sampleC : List Row :=
  [⟨0, ⟨2024, 2, 10⟩, 1⟩, ⟨1, ⟨2024, 2, 11⟩, 2⟩]

/-- Sample secondary table for the merge contrast: index labels of
`sampleC`, timestamps disjoint from it. -/
def sampleD : List Row :=
  [⟨0, ⟨2025, 2, 10⟩, 3⟩, ⟨1, ⟨2025, 2, 11⟩, 5⟩]

end Dashboard

namespace Dashboard

theorem maskSelect_map_eq_filter (t : List Row) (p : Row → Bool) :
    maskSelect t (t.map p) = t.filter p := by
  induction t with
  | nil => rfl
  | cons r t ih =>
      by_cases h : p r
      · simp [maskSelect, List.filter, h, ih]
      · simp [maskSelect, List.filter, h, ih]

theorem filterByYears_eq_filter (t : List Row) (ys : List ℕ) :
    filterByYears t ys = t.filter (fun r => decide (r.period.year ∈ ys)) := by
  unfold filterByYears isinMask
  exact maskSelect_map_eq_filter t _

/-- C6: for every table and every year set, `df[df['year'].isin(ys)]`
returns exactly the rows whose derived year is in the set, as a sublist
(preserving relative order); the empty year set yields the empty table. -/
theorem filterByYears_spec (t : List Row) (ys : List ℕ) :
    filterByYears t [] = [] ∧
    (filterByYears t ys).Sublist t ∧
    (∀ r : Row, r ∈ filterByYears t ys ↔ r ∈ t ∧ r.period.year ∈ ys) := by
  refine ⟨?_, ?_, ?_⟩
  · rw [filterByYears_eq_filter]
    simp
  · rw [filterByYears_eq_filter]
    exact List.filter_sublist t
  · intro r
    rw [filterByYears_eq_filter]
    simp

/-- C9: for every valid date the derived `is_weekend` flag is true
exactly when the derived weekday name is Saturday or Sunday. -/
theorem isWeekend_iff_dayName (d : Date) (h : validDate d) :
    isWeekend d = true ↔ (dayName d = "Saturday" ∨ dayName d = "Sunday") := by
  have hk : dayofweekNum d < 7 := Nat.mod_lt _ (by norm_num)
  unfold isWeekend dayName
  set k := dayofweekNum d with hkdef
  interval_cases k <;> simp [dayNames]

/-- Witness for C9 at the leap-year date 2024-02-29, a Thursday: the
date is valid, the equivalence holds there, and indeed the derived day
name is Thursday with `is_weekend` false. -/
theorem isWeekend_iff_dayName_witness :
    validDate ⟨2024, 2, 29⟩ ∧
    (isWeekend ⟨2024, 2, 29⟩ = true ↔
      (dayName ⟨2024, 2, 29⟩ = "Saturday" ∨ dayName ⟨2024, 2, 29⟩ = "Sunday")) ∧
    dayName ⟨2024, 2, 29⟩ = "Thursday" ∧ isWeekend ⟨2024, 2, 29⟩ = false :=
  ⟨by decide, isWeekend_iff_dayName ⟨2024, 2, 29⟩ (by decide), by decide, by decide⟩

/-- C2 (counterexample): on a table that is empty after year filtering the
metric cards' reductions evaluate to the IEEE NaN float — not to an
optional/absent "no data" value as the claim states ("never as NaN"). -/
theorem emptyFilter_mean_is_nan :
    seriesMean (ratios (filterByYears [⟨0, ⟨2024, 1, 6⟩, 56⟩] [])) = PFloat.nan ∧
    seriesMax (ratios (filterByYears [⟨0, ⟨2024, 1, 6⟩, 56⟩] [])) = PFloat.nan := by
  decide

/-- C2 (amended): on every table that is empty after year filtering,
`mean` and `max` return the NaN sentinel — a total result, not an
exception — and NaN is distinct from every numeric value, in particular
from zero. -/
theorem emptyFilter_mean_max_nan (t : List Row) (ys : List ℕ)
    (h : filterByYears t ys = []) :
    seriesMean (ratios (filterByYears t ys)) = PFloat.nan ∧
    seriesMax (ratios (filterByYears t ys)) = PFloat.nan ∧
    (∀ q : ℚ, PFloat.nan ≠ PFloat.val q) := by
  rw [h]
  refine ⟨rfl, rfl, ?_⟩
  intro q hq
  cases hq

/-- Witness for C2 (amended) at a concrete one-row table and the empty
year selection. -/
theorem emptyFilter_mean_max_nan_witness :
    seriesMean (ratios (filterByYears [⟨0, ⟨2025, 3, 5⟩, 44⟩] [])) = PFloat.nan ∧
    seriesMax (ratios (filterByYears [⟨0, ⟨2025, 3, 5⟩, 44⟩] [])) = PFloat.nan ∧
    (∀ q : ℚ, PFloat.nan ≠ PFloat.val q) :=
  emptyFilter_mean_max_nan [⟨0, ⟨2025, 3, 5⟩, 44⟩] [] (by decide)

theorem groupby_find_none_iff (t : List Row) (d : String) :
    (groupbyMeanDay t).find? (fun p => p.1 == d) = none ↔
      ∀ r ∈ t, dayName r.period ≠ d := by
  rw [List.find?_eq_none]
  unfold groupbyMeanDay
  simp [List.mem_dedup]

/-- C7: grouping the filtered table by weekday with the mean reduction
always yields exactly 7 buckets in the canonical Monday..Sunday order,
and a weekday with no rows appears with the NaN "no data" marker rather
than being omitted. -/
theorem day_avg_buckets (t : List Row) :
    (day_avg t).map Prod.fst = dayOrder ∧
    (day_avg t).length = 7 ∧
    (∀ d : String, ((d, PFloat.nan) ∈ day_avg t ↔
      d ∈ dayOrder ∧ ∀ r ∈ t, dayName r.period ≠ d)) := by
  refine ⟨?_, ?_, ?_⟩
  · rw [day_avg, reindexDays, List.map_map]
    exact List.map_id dayOrder
  · simp [day_avg, reindexDays, dayOrder]
  · intro d
    rw [day_avg, reindexDays]
    simp only [List.mem_map]
    constructor
    · rintro ⟨d', hd', heq⟩
      cases hfind : (groupbyMeanDay t).find? (fun p => p.1 == d') with
      | none =>
          rw [hfind] at heq
          simp only [Prod.mk.injEq] at heq
          obtain ⟨rfl, -⟩ := heq
          exact ⟨hd', (groupby_find_none_iff t d').mp hfind⟩
      | some p =>
          rw [hfind] at heq
          simp only [Prod.mk.injEq] at heq
          exact absurd heq.2 (by simp)
    · rintro ⟨hd, hnone⟩
      refine ⟨d, hd, ?_⟩
      rw [(groupby_find_none_iff t d).mpr hnone]

theorem alignPairs_setPeriod (a b : List Row) (d d' : Date) :
    alignPairs (setPeriod d a) (setPeriod d' b) = alignPairs a b := by
  unfold alignPairs setPeriod
  rw [List.filterMap_map]
  apply List.filterMap_congr
  intro r hr
  dsimp only [Function.comp]
  rw [List.find?_map]
  have hpred : ((fun s : Row => s.idx == r.idx) ∘
      (fun s : Row => ({ idx := s.idx, period := d', ratio := s.ratio } : Row))) =
      fun s : Row => s.idx == r.idx := rfl
  rw [hpred]
  cases List.find? (fun s : Row => s.idx == r.idx) b <;> rfl

/-- C4 (counterexample): at two concrete year-filtered tables whose
timestamp sets are disjoint — so the timestamps are not alignable — the
correlation metric still returns a defined numeric result (pandas
aligns the two ratio series by their index labels, not by timestamp),
where the claim requires the Undefined "no data" result. -/
theorem corr_unaligned_timestamps_cex :
    sampleA.all (fun r => sampleB.all (fun s => s.period != r.period)) = true ∧
    seriesCorr sampleA sampleB ≠ CorrResult.nan := by
  constructor
  · decide
  · have h1 : alignPairs sampleA sampleB = [(10, 5), (20, 7), (30, 6)] := by
      simp [alignPairs, sampleA, sampleB]
    simp only [seriesCorr, h1]
    norm_num [varX, varY, meanQ]
    simp

/-- C4 (amended): the correlation metric yields NaN exactly when fewer
than two index-aligned pairs exist or an aligned sample has zero
variance; it is invariant under arbitrary replacement of either table's
timestamps, which it never consults. -/
theorem seriesCorr_nan_iff (a b : List Row) :
    (seriesCorr a b = CorrResult.nan ↔
      (alignPairs a b).length < 2 ∨
      varX (alignPairs a b) = 0 ∨ varY (alignPairs a b) = 0) ∧
    (∀ d d' : Date, seriesCorr (setPeriod d a) (setPeriod d' b) = seriesCorr a b) := by
  constructor
  · simp only [seriesCorr]
    split_ifs with h1 h2
    · simp only [true_iff]
      exact Or.inl h1
    · simp only [true_iff]
      exact Or.inr h2
    · push_neg at h2
      simp [h1, h2.1, h2.2]
  · intro d d'
    unfold seriesCorr
    rw [alignPairs_setPeriod]

/-- C10: a triple belongs to the scatter input `combined` exactly when
its timestamp occurs in both filtered tables with the paired ratio
values (inner join on `period`); by contrast, at concrete tables with
disjoint timestamps the join is empty while the headline correlation
metric still produces a defined value, since it pairs the two ratio
columns without joining on timestamp. -/
theorem mergeOnPeriod_spec (a b : List Row) (p : Date) (x y : ℚ) :
    ((p, x, y) ∈ mergeOnPeriod a b ↔
      (∃ r ∈ a, r.period = p ∧ r.ratio = x) ∧
      (∃ s ∈ b, s.period = p ∧ s.ratio = y)) ∧
    (mergeOnPeriod sampleC sampleD = [] ∧
      seriesCorr sampleC sampleD ≠ CorrResult.nan) := by
  constructor
  · simp only [mergeOnPeriod, List.mem_flatMap, List.mem_map, List.mem_filter,
      beq_iff_eq, Prod.mk.injEq]
    constructor
    · rintro ⟨r, hr, s, ⟨hs, hsp⟩, hp, hx, hy⟩
      exact ⟨⟨r, hr, hp, hx⟩, ⟨s, hs, hsp.trans hp, hy⟩⟩
    · rintro ⟨⟨r, hr, hp, hx⟩, ⟨s, hs, hsp, hy⟩⟩
      exact ⟨r, hr, s, ⟨hs, hsp.trans hp.symm⟩, hp, hx, hy⟩
  · constructor
    · decide
    · have h1 : alignPairs sampleC sampleD = [(1, 3), (2, 5)] := by
        simp [alignPairs, sampleC, sampleD]
      simp only [seriesCorr, h1]
      norm_num [varX, varY, meanQ]
      simp

theorem lexLeB_refl (l : List Char) : lexLeB l l = true := by
  induction l with
  | nil => rfl
  | cons a as ih => simp [lexLeB, ih]

/-- C1 (counterexample): when the filesystem enumerates the two matching
files newest-first, the loader selects the lexicographically smaller
(older) filename: the selection is `files[-1]` of the enumeration, so
it depends on the enumeration order, contradicting the claim that the
lexicographically maximal filename is selected independent of that
order. -/
theorem selectDataFile_enum_order_cex :
    selectDataFile ["설빙_search_trend_2025-01.csv", "설빙_search_trend_2024-01.csv"] =
      some "설빙_search_trend_2024-01.csv" ∧
    lexLeB "설빙_search_trend_2024-01.csv".data "설빙_search_trend_2025-01.csv".data = true ∧
    "설빙_search_trend_2024-01.csv" ≠ "설빙_search_trend_2025-01.csv" := by
  refine ⟨by decide, by decide, by decide⟩

/-- C1 (amended): the loader selects the final file of the glob
enumeration; whenever that enumeration happens to be sorted in
ascending lexicographic order, the selected file is the
lexicographically maximal match. -/
theorem selectDataFile_sorted_max (files : List String) (hne : files ≠ [])
    (hsorted : List.Pairwise (fun a b => lexLeB a.data b.data = true) files) :
    ∃ m, selectDataFile files = some m ∧ m ∈ files ∧
      ∀ f ∈ files, lexLeB f.data m.data = true := by
  induction files with
  | nil => exact absurd rfl hne
  | cons x xs ih =>
      cases xs with
      | nil =>
          refine ⟨x, by simp [selectDataFile], by simp, ?_⟩
          intro f hf
          simp only [List.mem_singleton] at hf
          subst hf
          exact lexLeB_refl f.data
      | cons y ys =>
          obtain ⟨hx, hs⟩ := List.pairwise_cons.mp hsorted
          obtain ⟨m, hm1, hm2, hm3⟩ := ih (by simp) hs
          simp only [selectDataFile, List.isEmpty_cons, if_false] at hm1 ⊢
          refine ⟨m, ?_, List.mem_cons_of_mem x hm2, ?_⟩
          · rw [List.getLast?_cons_cons]
            exact hm1
          · intro f hf
            rcases List.mem_cons.mp hf with rfl | hf'
            · exact hx m hm2
            · exact hm3 f hf'

/-- Witness for C1 (amended) at a sorted two-file enumeration. -/
theorem selectDataFile_sorted_max_witness :
    ∃ m,
      selectDataFile ["설빙_search_trend_2024-01.csv", "설빙_search_trend_2025-01.csv"] =
        some m ∧
      m ∈ ["설빙_search_trend_2024-01.csv", "설빙_search_trend_2025-01.csv"] ∧
      ∀ f ∈ ["설빙_search_trend_2024-01.csv", "설빙_search_trend_2025-01.csv"],
        lexLeB f.data m.data = true :=
  selectDataFile_sorted_max _ (by decide) (by decide)

theorem reMatchAt_no_dot (p : List Char) (hp : '.' ∉ p) :
    ∀ s, reMatchAt p s = litMatchAt p s := by
  induction p with
  | nil => intro s; rfl
  | cons a ps ih =>
      have ha : a ≠ '.' := fun h => hp (by simp [h])
      have hp' : '.' ∉ ps := fun h => hp (List.mem_cons_of_mem _ h)
      intro s
      cases s with
      | nil => rfl
      | cons c cs =>
          have ha' : (a == '.') = false := by simp [ha]
          simp [reMatchAt, litMatchAt, ha', ih hp']

theorem reSearch_no_dot (p : List Char) (hp : '.' ∉ p) :
    ∀ s, reSearch p s = isSubstr p s := by
  intro s
  induction s with
  | nil => simp [reSearch, isSubstr, reMatchAt_no_dot p hp]
  | cons c cs ih => simp [reSearch, isSubstr, reMatchAt_no_dot p hp, ih]

/-- C3 (counterexample): the query is passed to the pattern engine as a
regular expression, not as a literal substring: query "1.5" (`.` is the
wildcard) retains the row whose sole cell is "125", although "1.5" is
not a literal substring of "125" — the code filter and the
literal-substring filter of the claim disagree. -/
theorem searchFilter_regex_cex :
    searchFilter "1.5" [["125"]] = [["125"]] ∧
    searchFilterSpec "1.5" [["125"]] = [] := by
  refine ⟨by decide, by decide⟩

/-- C3 (amended): for every query free of regular-expression
metacharacters (no `.` in the lowered query, within the modelled
fragment), the search filter returns exactly the rows in which at least
one stringified field contains the query as a literal substring,
compared case-insensitively; and the empty query returns the combined
table unchanged. -/
theorem searchFilter_amended (q : String) (t : List (List String))
    (hq : '.' ∉ lowerChars q.data) :
    searchFilter q t = searchFilterSpec q t ∧
    searchFilter "" t = t := by
  constructor
  · unfold searchFilter searchFilterSpec
    by_cases hq0 : q = ""
    · simp [hq0]
    · rw [if_neg hq0, if_neg hq0]
      apply List.filter_congr
      intro cells hc
      unfold rowMatches
      have hfun : ∀ s, reSearch (lowerChars q.data) s = isSubstr (lowerChars q.data) s :=
        reSearch_no_dot _ hq
      simp only [hfun]
  · simp [searchFilter]

/-- Witness for C3 (amended) at the query "2024" over a two-row table. -/
theorem searchFilter_amended_witness :
    searchFilter "2024" [["2024-01-06", "56"], ["2025-03-05", "44"]] =
      searchFilterSpec "2024" [["2024-01-06", "56"], ["2025-03-05", "44"]] ∧
    searchFilter "" [["2024-01-06", "56"], ["2025-03-05", "44"]] =
      [["2024-01-06", "56"], ["2025-03-05", "44"]] :=
  searchFilter_amended "2024" [["2024-01-06", "56"], ["2025-03-05", "44"]] (by decide)

/-- C5 (counterexample): the quarter assignment of line 191 changes the
table held by `df_s_filtered` — its `quarter` column appears — so a
presentation-stage step does mutate a previously derived table in
place, contradicting the claim that no table is ever mutated after the
load-time derivations. -/
theorem quarterStep_mutates_cex :
    (quarterStep (mkState sampleA sampleB [2024, 2025])).df_s_filtered ≠
      (mkState sampleA sampleB [2024, 2025]).df_s_filtered := by
  intro h
  exact absurd (congrArg (List.map Prod.snd) h) (by decide)

/-- C5 (amended): the quarter step leaves the loaded tables and the
other filtered table unchanged and preserves the row data of
`df_s_filtered`; the only change is the new `quarter` column, computed
as `dt.quarter` of each row's period. -/
theorem quarterStep_frame (st : DashState) :
    (quarterStep st).df_s = st.df_s ∧
    (quarterStep st).df_g = st.df_g ∧
    (quarterStep st).df_g_filtered = st.df_g_filtered ∧
    (quarterStep st).df_s_filtered.map Prod.fst = st.df_s_filtered.map Prod.fst ∧
    (quarterStep st).df_s_filtered.map Prod.snd =
      st.df_s_filtered.map (fun rq => some (quarterOf rq.1.period)) := by
  refine ⟨rfl, rfl, rfl, ?_, ?_⟩ <;> simp [quarterStep]

theorem splitSep_no_sep (sep : Char) (x : List Char) (h : sep ∉ x) :
    splitSep sep x = [x] := by
  induction x with
  | nil => rfl
  | cons c cs ih =>
      have hc : (c == sep) = false := by
        simp only [beq_eq_false_iff_ne]
        exact fun hh => h (by simp [hh])
      have ih' := ih (fun hh => h (List.mem_cons_of_mem _ hh))
      simp [splitSep, hc, ih']

theorem splitSep_append (sep : Char) (x rest : List Char) (h : sep ∉ x) :
    splitSep sep (x ++ sep :: rest) = x :: splitSep sep rest := by
  induction x with
  | nil => simp [splitSep]
  | cons c cs ih =>
      have hc : (c == sep) = false := by
        simp only [beq_eq_false_iff_ne]
        exact fun hh => h (by simp [hh])
      have ih' := ih (fun hh => h (List.mem_cons_of_mem _ hh))
      simp [splitSep, hc, ih']

theorem splitSep_joinSep (sep : Char) (parts : List (List Char))
    (h : ∀ x ∈ parts, sep ∉ x) (hne : parts ≠ []) :
    splitSep sep (joinSep sep parts) = parts := by
  induction parts with
  | nil => exact absurd rfl hne
  | cons x xs ih =>
      cases xs with
      | nil => exact splitSep_no_sep sep x (h x (by simp))
      | cons y ys =>
          rw [joinSep, splitSep_append sep x _ (h x (by simp))]
          rw [ih (fun z hz => h z (List.mem_cons_of_mem _ hz)) (by simp)]

theorem mem_joinSep (sep : Char) (c : Char) (parts : List (List Char))
    (h : c ∈ joinSep sep parts) : c = sep ∨ ∃ x ∈ parts, c ∈ x := by
  induction parts with
  | nil => exact absurd h (List.not_mem_nil c)
  | cons x xs ih =>
      cases xs with
      | nil => exact Or.inr ⟨x, by simp, by simpa [joinSep] using h⟩
      | cons y ys =>
          rw [joinSep] at h
          rcases List.mem_append.mp h with h1 | h2
          · exact Or.inr ⟨x, by simp, h1⟩
          · rcases List.mem_cons.mp h2 with rfl | h3
            · exact Or.inl rfl
            · rcases ih h3 with h4 | ⟨z, hz, hcz⟩
              · exact Or.inl h4
              · exact Or.inr ⟨z, List.mem_cons_of_mem _ hz, hcz⟩

theorem joinSep_ne_nil_of_two (sep : Char) (parts : List (List Char))
    (h : 2 ≤ parts.length) : joinSep sep parts ≠ [] := by
  rcases parts with _ | ⟨x, _ | ⟨y, xs⟩⟩
  · simp at h
  · simp at h
  · simp [joinSep]

theorem splitSep_flatMap (ls : List (List Char)) (h : ∀ l ∈ ls, '\n' ∉ l) :
    splitSep '\n' (ls.flatMap (fun l => l ++ ['\n'])) = ls ++ [[]] := by
  induction ls with
  | nil => rfl
  | cons l ls' ih =>
      rw [List.flatMap_cons, List.append_assoc, List.singleton_append]
      rw [splitSep_append _ _ _ (h l (by simp))]
      rw [ih (fun z hz => h z (List.mem_cons_of_mem _ hz))]
      rfl

theorem rowCells_year_pred (ys : List ℕ) (rq : RowQ)
    (hy : rq.1.period.year ∈ ys)
    (h2425 : rq.1.period.year = 2024 ∨ rq.1.period.year = 2025) :
    (match strToNat? (((rowCells rq).map String.data).getD 3 []) with
      | some y => decide (y ∈ ys)
      | none => false) = true := by
  have hcell : ((rowCells rq).map String.data).getD 3 [] =
      (toString rq.1.period.year).data := by
    simp [rowCells]
  rw [hcell]
  rcases h2425 with h | h <;> rw [h] at hy ⊢
  · have hp : strToNat? (toString (2024 : ℕ)).data = some 2024 := by decide
    rw [hp]
    exact decide_eq_true hy
  · have hp : strToNat? (toString (2025 : ℕ)).data = some 2025 := by decide
    rw [hp]
    exact decide_eq_true hy

theorem quarterStep_s_filtered (s g : List Row) (ys : List ℕ) :
    (quarterStep (mkState s g ys)).df_s_filtered =
      (filterByYears s ys).map (fun r => (r, some (quarterOf r.period))) := by
  show ((filterByYears s ys).map (fun r => (r, (none : Option ℕ)))).map
      (fun rq => (rq.1, some (quarterOf rq.1.period)))
    = (filterByYears s ys).map (fun r => (r, some (quarterOf r.period)))
  rw [List.map_map]
  rfl

theorem mem_display_year (s g : List Row) (ys : List ℕ) (rq : RowQ)
    (h : rq ∈ (quarterStep (mkState s g ys)).df_s_filtered ++
          (quarterStep (mkState s g ys)).df_g_filtered) :
    rq.1.period.year ∈ ys := by
  rcases List.mem_append.mp h with h1 | h1
  · rw [quarterStep_s_filtered] at h1
    obtain ⟨r, hr, rfl⟩ := List.mem_map.mp h1
    rw [filterByYears_eq_filter] at hr
    exact of_decide_eq_true (List.mem_filter.mp hr).2
  · obtain ⟨r, hr, rfl⟩ := List.mem_map.mp h1
    rw [filterByYears_eq_filter] at hr
    exact of_decide_eq_true (List.mem_filter.mp hr).2

/-- C8: exporting the displayed combined table (both year-filtered
series concatenated, the s-rows carrying the quarter column) to CSV and
reloading that CSV, filtered to the same year set, reproduces the same
column set and the same row count as the in-memory table.  Hypotheses:
the year selection is drawn from the dashboard's fixed multiselect
options `[2024, 2025]` (line 115), and the stringified cells contain no
separator characters (true of the rendered dates, numerals, day names
and flags). -/
theorem export_roundtrip (s g : List Row) (ys : List ℕ)
    (hys : ∀ y ∈ ys, y = 2024 ∨ y = 2025)
    (hclean : tableClean (displayRows (quarterStep (mkState s g ys))) = true) :
    ∃ hdr recs,
      parseCSV (toCSV displayCols (displayRows (quarterStep (mkState s g ys)))) =
        some (hdr, recs) ∧
      hdr = displayCols.map String.data ∧
      recs.length = (displayRows (quarterStep (mkState s g ys))).length ∧
      (reloadYearFilter ys recs).length = recs.length := by
  have hclean' : ∀ cells ∈ displayRows (quarterStep (mkState s g ys)),
      ∀ c ∈ cells, ∀ ch ∈ c.data, ¬ch = ',' ∧ ¬ch = '\n' := by
    simpa [tableClean, List.all_eq_true] using hclean
  have hcols_clean : ∀ c ∈ displayCols, ∀ ch ∈ c.data, ¬ch = ',' ∧ ¬ch = '\n' := by
    decide
  have hnl : ∀ l ∈ (displayCols :: displayRows (quarterStep (mkState s g ys))).map recordOf,
      '\n' ∉ l := by
    intro l hl hmem
    obtain ⟨cells, hcells, rfl⟩ := List.mem_map.mp hl
    rcases mem_joinSep ',' '\n' _ hmem with hcomma | ⟨x, hx, hchx⟩
    · exact absurd hcomma (by decide)
    · obtain ⟨c, hc, rfl⟩ := List.mem_map.mp hx
      rcases List.mem_cons.mp hcells with rfl | hrow
      · exact (hcols_clean c hc '\n' hchx).2 rfl
      · exact (hclean' cells hrow c hc '\n' hchx).2 rfl
  have hne : ∀ l ∈ (displayCols :: displayRows (quarterStep (mkState s g ys))).map recordOf,
      l ≠ [] := by
    intro l hl
    obtain ⟨cells, hcells, rfl⟩ := List.mem_map.mp hl
    apply joinSep_ne_nil_of_two
    rcases List.mem_cons.mp hcells with rfl | hrow
    · decide
    · obtain ⟨rq, _, rfl⟩ := List.mem_map.mp hrow
      simp [rowCells]
  have hsplit : splitSep '\n' (toCSV displayCols (displayRows (quarterStep (mkState s g ys)))) =
      ((displayCols :: displayRows (quarterStep (mkState s g ys))).map recordOf) ++ [[]] :=
    splitSep_flatMap _ hnl
  have hfilter :
      ((((displayCols :: displayRows (quarterStep (mkState s g ys))).map recordOf) ++ [[]]).filter
        (fun l => !l.isEmpty)) =
      (displayCols :: displayRows (quarterStep (mkState s g ys))).map recordOf := by
    rw [List.filter_append]
    have h1 : ((displayCols :: displayRows (quarterStep (mkState s g ys))).map recordOf).filter
        (fun l => !l.isEmpty) =
        (displayCols :: displayRows (quarterStep (mkState s g ys))).map recordOf :=
      List.filter_eq_self.mpr (fun l hl => by
        simpa [List.isEmpty_iff] using hne l hl)
    rw [h1]
    simp
  refine ⟨splitSep ',' (recordOf displayCols),
    ((displayRows (quarterStep (mkState s g ys))).map recordOf).map (splitSep ','),
    ?_, ?_, ?_, ?_⟩
  · unfold parseCSV
    rw [hsplit, hfilter, List.map_cons]
  · show splitSep ',' (recordOf displayCols) = displayCols.map String.data
    decide
  · simp
  · have hall : ∀ rec ∈ ((displayRows (quarterStep (mkState s g ys))).map recordOf).map
        (splitSep ','),
        (fun cells =>
          match strToNat? (cells.getD 3 []) with
          | some y => decide (y ∈ ys)
          | none => false) rec = true := by
      intro rec hrec
      obtain ⟨l, hl, rfl⟩ := List.mem_map.mp hrec
      obtain ⟨cells, hcells, rfl⟩ := List.mem_map.mp hl
      obtain ⟨rq, hrq, rfl⟩ := List.mem_map.mp hcells
      have hrt : splitSep ',' (recordOf (rowCells rq)) = (rowCells rq).map String.data := by
        apply splitSep_joinSep
        · intro x hx hcx
          obtain ⟨c, hc, rfl⟩ := List.mem_map.mp hx
          exact (hclean' (rowCells rq) (List.mem_map_of_mem rowCells hrq) c hc ',' hcx).1 rfl
        · simp [rowCells]
      rw [hrt]
      have hy : rq.1.period.year ∈ ys := mem_display_year s g ys rq hrq
      exact rowCells_year_pred ys rq hy (hys _ hy)
    unfold reloadYearFilter
    rw [List.filter_eq_self.mpr hall]

/-- Witness for C8 at a concrete pair of one-row tables and the full
year selection. -/
theorem export_roundtrip_witness :
    ∃ hdr recs,
      parseCSV (toCSV displayCols (displayRows (quarterStep
        (mkState [⟨0, ⟨2024, 1, 6⟩, 56⟩] [⟨0, ⟨2025, 3, 5⟩, 44⟩] [2024, 2025])))) =
        some (hdr, recs) ∧
      hdr = displayCols.map String.data ∧
      recs.length = (displayRows (quarterStep
        (mkState [⟨0, ⟨2024, 1, 6⟩, 56⟩] [⟨0, ⟨2025, 3, 5⟩, 44⟩] [2024, 2025]))).length ∧
      (reloadYearFilter [2024, 2025] recs).length = recs.length :=
  export_roundtrip [⟨0, ⟨2024, 1, 6⟩, 56⟩] [⟨0, ⟨2025, 3, 5⟩, 44⟩] [2024, 2025]
    (by decide) (by decide)

end Dashboard
